import Mathlib

/-!
Verification of the Agent Registry & Skill-Dispatch Engine.

The definitions below are a shallow embedding of the TypeScript sources:
`AIProcessor` (skill classification, input/output hygiene, message dispatch)
and `AgentProfileManager` (capability management), together with a model of
the registry's task recording described by the specification.  Strings are
Lean `String`s; JavaScript string operations (`toLowerCase`, `includes`,
`trim`, `replace`, `substring`, `slice`) are embedded as executable
functions on the underlying character lists.
-/

namespace AlmAgent

/-- Whitespace test matching the JavaScript `\s` class and `String.trim`:
tab, line feed, vertical tab, form feed, carriage return, space, NBSP and
the Unicode space separators, line/paragraph separators, and BOM. -/
def isJsWs (c : Char) : Bool :=
  let n := c.toNat
  n == 0x9 || n == 0xA || n == 0xB || n == 0xC || n == 0xD || n == 0x20 ||
  n == 0xA0 || n == 0x1680 || (0x2000 ≤ n && n ≤ 0x200A) || n == 0x2028 ||
  n == 0x2029 || n == 0x202F || n == 0x205F || n == 0x3000 || n == 0xFEFF

/-- Simple lower-casing of one character as JavaScript `toLowerCase` does on
the Basic-Latin and Cyrillic repertoire used by the classifier keywords:
ASCII A-Z, Cyrillic А-Я and Ё map to their lowercase forms. -/
def charLower (c : Char) : Char :=
  let n := c.toNat
  if 0x41 ≤ n ∧ n ≤ 0x5A then Char.ofNat (n + 0x20)
  else if 0x410 ≤ n ∧ n ≤ 0x42F then Char.ofNat (n + 0x20)
  else if n = 0x401 then Char.ofNat 0x451
  else c

/-- Embedding of JavaScript `String.prototype.toLowerCase`. -/
def jsToLower (s : String) : String :=
  ⟨s.data.map charLower⟩

/-- Contiguous-sublist test: `isSubListOf needle hay` is true when `needle`
occurs contiguously inside `hay`. -/
def isSubListOf (needle : List Char) : List Char → Bool
  | [] => needle.isEmpty
  | c :: t => needle.isPrefixOf (c :: t) || isSubListOf needle t

/-- Embedding of JavaScript `s.includes(sub)`. -/
def strIncludes (s sub : String) : Bool :=
  isSubListOf sub.data s.data

/-- Embedding of JavaScript `String.prototype.trim` (drop whitespace from
both ends). -/
def trimList (l : List Char) : List Char :=
  ((l.dropWhile isJsWs).reverse.dropWhile isJsWs).reverse

/-- Embedding of `.replace(/\s+/g, ' ')`: each maximal run of whitespace
becomes a single space.  The boolean argument records whether the previous
character was whitespace. -/
def collapseWsAux : Bool → List Char → List Char
  | _, [] => []
  | prevWs, c :: t =>
    if isJsWs c then
      if prevWs then collapseWsAux true t
      else ' ' :: collapseWsAux true t
    else c :: collapseWsAux false t

/-- Character class `[\w\s\p{L}\p{N}?!.,;:()\-]` of the input-cleaning
regex, over the Basic-Latin and Cyrillic repertoire the program handles:
word characters, whitespace, letters (ASCII and Cyrillic U+0400-U+04FF),
digits, and the listed punctuation. -/
def isAllowedChar (c : Char) : Bool :=
  let n := c.toNat
  (0x41 ≤ n && n ≤ 0x5A) || (0x61 ≤ n && n ≤ 0x7A) ||
  (0x30 ≤ n && n ≤ 0x39) || n == 0x5F ||
  isJsWs c ||
  (0x400 ≤ n && n ≤ 0x4FF) ||
  c == '?' || c == '!' || c == '.' || c == ',' || c == ';' || c == ':' ||
  c == '(' || c == ')' || c == '-'

/-- Embedding of `AIProcessor.cleanInput`:
`text.trim().replace(/\s+/g, ' ').replace(/[^\w\s\p{L}\p{N}?!.,;:()\-]/gu, '')`. -/
def cleanInput (text : String) : String :=
  ⟨(collapseWsAux false (trimList text.data)).filter isAllowedChar⟩

/-- Emit a pending run of `n` newlines as the regex
`.replace(/\n{3,}/g, '\n\n')` does: runs of three or more newlines become
exactly two, shorter runs are kept. -/
def emitNlRun (n : Nat) : List Char :=
  if 3 ≤ n then ['\n', '\n'] else List.replicate n '\n'

/-- Worker for the newline-collapsing replacement; `pending` counts the
newlines of the current run that have been read but not yet emitted. -/
def collapseNlAux (pending : Nat) : List Char → List Char
  | [] => emitNlRun pending
  | c :: t =>
    if c = '\n' then collapseNlAux (pending + 1) t
    else emitNlRun pending ++ (c :: collapseNlAux 0 t)

/-- Embedding of `AIProcessor.cleanOutput`:
`text.trim().replace(/\n{3,}/g, '\n\n')`. -/
def cleanOutput (text : String) : String :=
  ⟨collapseNlAux 0 (trimList text.data)⟩

/-- Embedding of `message.substring(0, n)`: the first `n` characters. -/
def jsSubstringTo (s : String) (n : Nat) : String :=
  ⟨s.data.take n⟩

/-- Embedding of `AIProcessor.detectSkillName`: lower-case the message and
test the four keyword rules in their fixed source order. -/
def detectSkillName (message : String) : String :=
  let lower := jsToLower message
  if strIncludes lower ("баланс") || strIncludes lower ("balance") ||
     strIncludes lower ("wallet") || strIncludes lower ("кошелек") ||
     strIncludes lower ("кошелёк") then "Balance Checker"
  else if strIncludes lower ("транзакц") || strIncludes lower ("transaction") ||
     strIncludes lower ("история") then "Transaction Analyzer"
  else if strIncludes lower ("цен") || strIncludes lower ("price") ||
     strIncludes lower ("курс") then "Price Monitor"
  else if strIncludes lower ("сеть") || strIncludes lower ("network") ||
     strIncludes lower ("статус") || strIncludes lower ("status") ||
     strIncludes lower ("slot") then "Network Status"
  else ""

/-- The classifier's rule list in its fixed order, written as data: each
rule is a keyword set paired with its skill tag. -/
def skillRules : List (List String × String) :=
  [(["баланс", "balance", "wallet", "кошелек", "кошелёк"], "Balance Checker"),
   (["транзакц", "transaction", "история"], "Transaction Analyzer"),
   (["цен", "price", "курс"], "Price Monitor"),
   (["сеть", "network", "статус", "status", "slot"], "Network Status")]

/-- A rule matches a lower-cased message when some keyword of the rule
occurs in it. -/
def ruleHits (lower : String) (rule : List String × String) : Bool :=
  rule.1.any (fun k => strIncludes lower k)

/-- Specification-side classifier: the tag of the first rule of
`skillRules` that matches the lower-cased message, or the empty tag. -/
def firstMatchTag (message : String) : String :=
  let lower := jsToLower message
  match skillRules.find? (ruleHits lower) with
  | some rule => rule.2
  | none => ""

/-- Role of a chat message (`'user' | 'assistant'`; the model call itself
also carries a separate system prompt). -/
inductive ChatRole where
  | user
  | assistant
deriving DecidableEq

/-- A chat message: one history turn, or the current user message. -/
structure ChatMsg where
  role : ChatRole
  content : String
deriving DecidableEq

/-- Result returned by `SolanaCommandHandler.handleCommand`:
`{message: string, success: bool}`. -/
structure CmdResult where
  message : String
  success : Bool
deriving DecidableEq

/-- The collaborators and configuration `AIProcessor` works against.
`hasSolana` is whether `solanaHandler` was constructed (`enableSolana`);
`hasSap` is whether `config.sapProtocol` is present.  Fallible collaborator
calls are `Except`-valued: an `error` result is a rejected promise.  The
command recognizer `isSolanaCommand` returns a plain boolean, as its
interface declares. -/
structure Collab where
  hasSolana : Bool
  isSolanaCommand : String → Bool
  handleCommand : String → Except String CmdResult
  hasSap : Bool
  recordTask : String → String → Bool → Except String Unit
  maxInputLength : Nat
  systemPrompt : String
  generateChat : String → List ChatMsg → Except String String

/-- Default value of `maxInputLength` set in the `AIProcessor`
constructor. -/
def defaultMaxInputLength : Nat := 2000

/-- Observable outcome of one `processMessage` call: the returned text plus
the calls made to the mutating/external collaborators: every
`recordTask(description, skillName, success)` invocation, every
`generateChat(systemPrompt, messages)` invocation, and every
`handleCommand(message)` invocation. -/
structure ProcResult where
  response : String
  recorded : List (String × String × Bool)
  chatCalls : List (String × List ChatMsg)
  commandCalls : List String
deriving DecidableEq

/-- Response for empty or whitespace-only input. -/
def emptyInputResponse : String := "Пожалуйста, отправьте непустое сообщение."

/-- Response for over-long input; it states the configured limit. -/
def tooLongResponse (limit : Nat) : String :=
  "Сообщение слишком длинное. Максимум " ++ toString limit ++ " символов."

/-- Response when the Solana command handler throws. -/
def solanaErrorResponse (e : String) : String :=
  "Ошибка выполнения Solana команды: " ++ e

/-- Response when the completion model throws. -/
def aiErrorResponse (e : String) : String := "Error: " ++ e

/-- The bounded trailing window `history.slice(-10)`: the last `n` elements
of a list (the whole list when it is shorter). -/
def lastN (n : Nat) (l : List α) : List α :=
  l.drop (l.length - n)

/-- The messages array built on the completion path: the last 10 history
turns followed by the cleaned current message as a user turn. -/
def completionMessages (history : List ChatMsg) (cleanedMessage : String) :
    List ChatMsg :=
  lastN 10 history ++ [⟨ChatRole.user, cleanedMessage⟩]

/-- Embedding of `AIProcessor.processMessage`.  The outer `Except` is the
promise returned to the caller: an `error` value would be a rejected
promise.  Every failure of a collaborator is caught where the source
catches it: `handleCommand` by the command-path `try`, `recordTask` by the
attached empty `.catch` handler (its outcome is discarded), `generateChat`
by the completion-path `try`. -/
def processMessage (c : Collab) (message : String) (history : List ChatMsg) :
    Except String ProcResult :=
  if c.hasSolana && c.isSolanaCommand message then
    match c.handleCommand message with
    | Except.ok result =>
      let recorded :=
        if c.hasSap then
          let skillName := detectSkillName message
          if skillName ≠ "" then
            [(jsSubstringTo message 80, skillName, result.success)]
          else []
        else []
      Except.ok ⟨result.message, recorded, [], [message]⟩
    | Except.error e =>
      Except.ok ⟨solanaErrorResponse e, [], [], [message]⟩
  else
    let cleanedMessage := cleanInput message
    if cleanedMessage = "" then
      Except.ok ⟨emptyInputResponse, [], [], []⟩
    else if cleanedMessage.length > c.maxInputLength then
      Except.ok ⟨tooLongResponse c.maxInputLength, [], [], []⟩
    else
      let messages := completionMessages history cleanedMessage
      match c.generateChat c.systemPrompt messages with
      | Except.ok response =>
        Except.ok ⟨cleanOutput response, [], [(c.systemPrompt, messages)], []⟩
      | Except.error e =>
        Except.ok ⟨aiErrorResponse e, [], [(c.systemPrompt, messages)], []⟩

/-- An agent capability:
`{name, description, version, enabled}`. -/
structure AgentCapability where
  name : String
  description : String
  version : String
  enabled : Bool
deriving DecidableEq

/-- Pricing currency. -/
inductive Currency where
  | SOL
  | USDC
deriving DecidableEq

/-- Optional pricing of an agent's services. -/
structure Pricing where
  pricePerTask : ℚ
  currency : Currency
deriving DecidableEq

/-- An agent profile as held by the registry; timestamps are abstract
naturals. -/
structure AgentProfile where
  id : String
  name : String
  description : String
  version : String
  publicKey : Option String
  capabilities : List AgentCapability
  reputation : Int
  tasksCompleted : Nat
  successRate : ℚ
  pricing : Option Pricing
  createdAt : Nat
  lastActive : Nat
deriving DecidableEq

/-- The in-place mutation done by `toggleCapability`: set the `enabled`
flag of the first capability whose name matches, leave the list unchanged
when none does (mirrors `capabilities.find(...)` followed by the flag
assignment). -/
def setFirstCapability (nm : String) (en : Bool) :
    List AgentCapability → List AgentCapability
  | [] => []
  | c :: t =>
    if c.name = nm then { c with enabled := en } :: t
    else c :: setFirstCapability nm en t

/-- Embedding of `AgentProfileManager.addCapability`: append when a profile
is cached, no-op otherwise.  The manager's `this.profile` field is the
`Option AgentProfile` argument. -/
def addCapability (p : Option AgentProfile) (cap : AgentCapability) :
    Option AgentProfile :=
  match p with
  | none => none
  | some pr => some { pr with capabilities := pr.capabilities ++ [cap] }

/-- Embedding of `AgentProfileManager.toggleCapability`. -/
def toggleCapability (p : Option AgentProfile) (nm : String) (en : Bool) :
    Option AgentProfile :=
  match p with
  | none => none
  | some pr => some { pr with capabilities := setFirstCapability nm en pr.capabilities }

/-- Embedding of `AgentProfileManager.getEnabledCapabilities`. -/
def getEnabledCapabilities (p : Option AgentProfile) : List AgentCapability :=
  match p with
  | none => []
  | some pr => pr.capabilities.filter (fun c => c.enabled)

/-- Modelled from the spec: the per-agent statistics `SAPRegistry` keeps
for task recording (`SAPRegistry.recordTask` is not under `src/`).  The
registry keeps the running success and failure counts from which
`successRate` is recomputed, and the bounded reputation score. -/
structure AgentStats where
  successes : Nat
  failures : Nat
  reputation : Int
deriving DecidableEq

/-- Clamp a reputation value to [0, 100]. -/
def clamp100 (r : Int) : Int := max 0 (min 100 r)

/-- Modelled from the spec: the effect of one `SAPRegistry.recordTask`
outcome on a resolved agent: increment the matching count and adjust
reputation by +1 on success, -2 on failure, clamped to [0, 100]. -/
def recordOutcome (st : AgentStats) (success : Bool) : AgentStats :=
  { successes := st.successes + (if success then 1 else 0),
    failures := st.failures + (if success then 0 else 1),
    reputation := clamp100 (st.reputation + (if success then 1 else -2)) }

/-- Derived `tasksCompleted` field: every recorded task, success or
failure. -/
def tasksCompleted (st : AgentStats) : Nat := st.successes + st.failures

/-- Derived `successRate` field: `100 * successes / tasksCompleted` when
tasks were recorded, the initial value 100 otherwise. -/
def successRate (st : AgentStats) : ℚ :=
  if tasksCompleted st = 0 then 100
  else 100 * (st.successes : ℚ) / (tasksCompleted st : ℚ)

/-- C1: the skill classifier is first-match-wins over the fixed rule order
balance → transaction → price → network: for every input the returned tag
is the tag of the first matching rule of `skillRules` (empty tag when none
matches), and any input containing both a balance keyword and a price
keyword classifies as "Balance Checker" because the balance rule is tested
first. -/
theorem detectSkillName_first_match_wins (m : String) :
    detectSkillName m = firstMatchTag m ∧
    (∀ kb kp : String,
      kb ∈ ["баланс", "balance", "wallet", "кошелек", "кошелёк"] →
      kp ∈ ["цен", "price", "курс"] →
      strIncludes (jsToLower m) kb = true →
      strIncludes (jsToLower m) kp = true →
      detectSkillName m = "Balance Checker") := by
  constructor
  · simp only [detectSkillName, firstMatchTag, skillRules, ruleHits, List.find?,
      List.any_cons, List.any_nil, Bool.or_false, Bool.or_assoc]
    cases h1 : strIncludes (jsToLower m) ("баланс") || (strIncludes (jsToLower m) ("balance") ||
       (strIncludes (jsToLower m) ("wallet") || (strIncludes (jsToLower m) ("кошелек") ||
       strIncludes (jsToLower m) ("кошелёк")))) <;>
    cases h2 : strIncludes (jsToLower m) ("транзакц") || (strIncludes (jsToLower m) ("transaction") ||
       strIncludes (jsToLower m) ("история")) <;>
    cases h3 : strIncludes (jsToLower m) ("цен") || (strIncludes (jsToLower m) ("price") ||
       strIncludes (jsToLower m) ("курс")) <;>
    cases h4 : strIncludes (jsToLower m) ("сеть") || (strIncludes (jsToLower m) ("network") ||
       (strIncludes (jsToLower m) ("статус") || (strIncludes (jsToLower m) ("status") ||
       strIncludes (jsToLower m) ("slot")))) <;>
    simp only [h1, h2, h3, h4] <;> rfl
  · intro kb kp hkb hkp hb _
    fin_cases hkb <;> simp [detectSkillName, hb]

/-- Witness for C1 at the dual-match input "check BALANCE and price". -/
theorem detectSkillName_first_match_wins_witness :
    strIncludes (jsToLower ("check BALANCE and price")) ("balance") = true ∧
    strIncludes (jsToLower ("check BALANCE and price")) ("price") = true ∧
    detectSkillName ("check BALANCE and price") = "Balance Checker" :=
  ⟨by decide, by decide,
   (detectSkillName_first_match_wins ("check BALANCE and price")).2
     ("balance") ("price") (by decide) (by decide) (by decide) (by decide)⟩

/-- C3: `processMessage` never rejects: for every collaborator behaviour
(command executor throwing, completion client throwing, registry recording
failing) and every message and history, the returned promise resolves to a
text response. -/
theorem processMessage_never_rejects (c : Collab) (m : String)
    (hist : List ChatMsg) :
    ∃ r : ProcResult, processMessage c m hist = Except.ok r := by
  unfold processMessage
  split
  · split <;> exact ⟨_, rfl⟩
  · dsimp only
    split
    · exact ⟨_, rfl⟩
    · split
      · exact ⟨_, rfl⟩
      · split <;> exact ⟨_, rfl⟩

/-- A concrete collaborator set whose command handler recognizes every
message and succeeds, and whose registry rejects every recording. -/
def cmdCollab : Collab :=
  { hasSolana := true,
    isSolanaCommand := fun _ => true,
    handleCommand := fun _ => Except.ok ⟨"command done", true⟩,
    hasSap := true,
    recordTask := fun _ _ _ => Except.error ("registry down"),
    maxInputLength := defaultMaxInputLength,
    systemPrompt := "sys",
    generateChat := fun _ _ => Except.error ("no model") }

/-- C2: on the command path with a classified message, `recordTask` is
invoked with the message truncated to at most 80 characters, the tag and
the collaborator's success flag, and the collaborator's result message is
returned unchanged for every behaviour of `recordTask` (the recording
outcome never affects the returned value). -/
theorem commandPath_records_and_returns (c : Collab) (m : String)
    (hist : List ChatMsg) (r : CmdResult)
    (hsol : c.hasSolana = true) (hcmd : c.isSolanaCommand m = true)
    (hexec : c.handleCommand m = Except.ok r) (hsap : c.hasSap = true)
    (htag : detectSkillName m ≠ "") :
    processMessage c m hist =
      Except.ok ⟨r.message, [(jsSubstringTo m 80, detectSkillName m, r.success)],
        [], [m]⟩ ∧
    (jsSubstringTo m 80).length ≤ 80 ∧
    (∀ rt : String → String → Bool → Except String Unit,
      processMessage { c with recordTask := rt } m hist =
        processMessage c m hist) := by
  refine ⟨?_, ?_, fun rt => rfl⟩
  · simp [processMessage, hsol, hcmd, hexec, hsap, htag]
  · show (m.data.take 80).length ≤ 80
    rw [List.length_take]
    exact Nat.min_le_left 80 m.data.length

/-- Witness for C2: a recognized, balance-classified message whose
recording is rejected by the registry; the handler's message is still
returned and the truncated recording call is made. -/
theorem commandPath_records_and_returns_witness :
    cmdCollab.hasSolana = true ∧ cmdCollab.hasSap = true ∧
    detectSkillName ("balance check") ≠ "" ∧
    processMessage cmdCollab ("balance check") [] =
      Except.ok ⟨"command done",
        [(jsSubstringTo ("balance check") 80, detectSkillName ("balance check"), true)],
        [], ["balance check"]⟩ :=
  ⟨rfl, rfl, by decide,
   (commandPath_records_and_returns cmdCollab ("balance check") []
     ⟨"command done", true⟩ rfl rfl rfl rfl (by decide)).1⟩

/-- C10: a message the command collaborator recognizes is executed before
any input hygiene: for every such message — including whitespace-only,
empty-after-cleaning or over-long ones — the returned text is determined by
`handleCommand` alone (its result message, or the command-error text), and
the completion collaborator is never invoked. -/
theorem commandPath_precedes_hygiene (c : Collab) (m : String)
    (hist : List ChatMsg)
    (hsol : c.hasSolana = true) (hcmd : c.isSolanaCommand m = true) :
    (∀ r : CmdResult, c.handleCommand m = Except.ok r →
      ∃ rec, processMessage c m hist = Except.ok ⟨r.message, rec, [], [m]⟩) ∧
    (∀ e : String, c.handleCommand m = Except.error e →
      processMessage c m hist =
        Except.ok ⟨solanaErrorResponse e, [], [], [m]⟩) := by
  constructor
  · intro r hexec
    refine ⟨if c.hasSap then
        (if detectSkillName m ≠ "" then
          [(jsSubstringTo m 80, detectSkillName m, r.success)] else []) else [], ?_⟩
    simp only [processMessage, hsol, hcmd, Bool.and_self, if_pos, hexec]
  · intro e hexec
    simp [processMessage, hsol, hcmd, hexec]

/-- Witness for C10 at the whitespace-only recognized message "   ", which
the hygiene path would have rejected as empty. -/
theorem commandPath_precedes_hygiene_witness :
    cleanInput ("   ") = "" ∧
    cmdCollab.isSolanaCommand ("   ") = true ∧
    (∃ rec, processMessage cmdCollab ("   ") [] =
      Except.ok ⟨"command done", rec, [], ["   "]⟩) :=
  ⟨by decide, rfl,
   (commandPath_precedes_hygiene cmdCollab ("   ") [] rfl rfl).1
     ⟨"command done", true⟩ rfl⟩

/-- The command route is not taken when the handler is absent or does not
recognize the message. -/
lemma notCommand_and_eq_false {c : Collab} {m : String}
    (h : ¬(c.hasSolana = true ∧ c.isSolanaCommand m = true)) :
    (c.hasSolana && c.isSolanaCommand m) = false := by
  cases hs : c.hasSolana <;> cases hr : c.isSolanaCommand m <;> simp_all

/-- Cleaning a whitespace-only message yields the empty string. -/
lemma cleanInput_of_all_ws {m : String}
    (h : ∀ ch ∈ m.data, isJsWs ch = true) :
    cleanInput m = "" := by
  have ht : trimList m.data = [] := by
    unfold trimList
    rw [List.dropWhile_eq_nil_iff.mpr h]
    rfl
  unfold cleanInput
  rw [ht]
  rfl

/-- A concrete collaborator set with no command handler, a completion model
that answers "ok", and a small configured length limit. -/
def completionCollab : Collab :=
  { hasSolana := false,
    isSolanaCommand := fun _ => false,
    handleCommand := fun _ => Except.error ("unused"),
    hasSap := false,
    recordTask := fun _ _ _ => Except.ok (),
    maxInputLength := 5,
    systemPrompt := "sys",
    generateChat := fun _ _ => Except.ok ("ok") }

/-- Counterexample to C4 as stated: the input "       hi" (nine characters,
longer than the configured limit of five) is not rejected — the length
check runs on the cleaned message "hi", so the completion collaborator is
invoked and its answer is returned instead of the length-guidance
message. -/
theorem inputLength_guard_counterexample :
    ("       hi").length > completionCollab.maxInputLength ∧
    processMessage completionCollab ("       hi") [] =
      Except.ok ⟨"ok", [], [("sys", [⟨ChatRole.user, "hi"⟩])], []⟩ ∧
    (⟨"ok", [], [("sys", [⟨ChatRole.user, "hi"⟩])], []⟩ : ProcResult) ≠
      ⟨tooLongResponse completionCollab.maxInputLength, [], [], []⟩ :=
  ⟨by decide, rfl, by decide⟩

/-- C4 amended: for every input not recognized as a command whose cleaned
form is longer than `maxInputLength`, `processMessage` returns the
length-guidance message stating the configured limit and invokes neither
the completion nor the command collaborator. -/
theorem inputLength_guard_cleaned (c : Collab) (m : String)
    (hist : List ChatMsg)
    (hcmd : ¬(c.hasSolana = true ∧ c.isSolanaCommand m = true))
    (hlen : (cleanInput m).length > c.maxInputLength) :
    processMessage c m hist =
      Except.ok ⟨tooLongResponse c.maxInputLength, [], [], []⟩ := by
  have hb := notCommand_and_eq_false hcmd
  have hne : ¬(cleanInput m = "") := by
    intro h0
    rw [h0] at hlen
    exact Nat.not_lt_zero _ hlen
  simp [processMessage, hb, hne, hlen]

/-- Witness for the amended C4 at the seven-character cleaned input
"hello!!" against the configured limit five. -/
theorem inputLength_guard_cleaned_witness :
    (cleanInput ("hello!!")).length > completionCollab.maxInputLength ∧
    processMessage completionCollab ("hello!!") [] =
      Except.ok ⟨tooLongResponse completionCollab.maxInputLength, [], [], []⟩ :=
  ⟨by decide,
   inputLength_guard_cleaned completionCollab ("hello!!") [] (by decide) (by decide)⟩

/-- C5: the empty string and every whitespace-only input produce the
non-empty-message guidance and cause no registry interaction and no
collaborator call (provided the command collaborator does not claim the
message; with no handler configured — the default — that is always so). -/
theorem emptyInput_guard (c : Collab) (m : String) (hist : List ChatMsg)
    (hws : ∀ ch ∈ m.data, isJsWs ch = true)
    (hcmd : ¬(c.hasSolana = true ∧ c.isSolanaCommand m = true)) :
    processMessage c m hist = Except.ok ⟨emptyInputResponse, [], [], []⟩ := by
  have hb := notCommand_and_eq_false hcmd
  have h0 := cleanInput_of_all_ws hws
  simp [processMessage, hb, h0]

/-- Witness for C5 at the empty string and at the three-space input. -/
theorem emptyInput_guard_witness :
    processMessage completionCollab ("") [] =
      Except.ok ⟨emptyInputResponse, [], [], []⟩ ∧
    processMessage completionCollab ("   ") [] =
      Except.ok ⟨emptyInputResponse, [], [], []⟩ :=
  ⟨emptyInput_guard completionCollab ("") [] (by decide) (by decide),
   emptyInput_guard completionCollab ("   ") [] (by decide) (by decide)⟩

/-- Three consecutive newline characters occur somewhere in the list. -/
def hasTripleNl : List Char → Bool
  | a :: b :: c2 :: t =>
    (a == '\n' && (b == '\n' && c2 == '\n')) || hasTripleNl (b :: c2 :: t)
  | _ => false

/-- Dropping a leading non-newline character does not affect the
triple-newline test. -/
lemma htn_cons_of_first (a : Char) (ha : (a == '\n') = false)
    (t : List Char) : hasTripleNl (a :: t) = hasTripleNl t := by
  match t with
  | [] => rfl
  | [b] => rfl
  | b :: c2 :: t2 => simp [hasTripleNl, ha]

/-- Dropping a leading newline does not affect the triple-newline test when
the following character is not a newline. -/
lemma htn_nl (c : Char) (hc : (c == '\n') = false) (R : List Char) :
    hasTripleNl ('\n' :: c :: R) = hasTripleNl (c :: R) := by
  match R with
  | [] => rfl
  | d :: t => simp [hasTripleNl, hc]

/-- Two leading newlines before a non-newline character are harmless. -/
lemma htn_nl_nl (c : Char) (hc : (c == '\n') = false) (R : List Char) :
    hasTripleNl ('\n' :: '\n' :: c :: R) = hasTripleNl (c :: R) := by
  have h1 : hasTripleNl ('\n' :: '\n' :: c :: R) =
      ((('\n' : Char) == '\n' && (('\n' : Char) == '\n' && c == '\n')) ||
        hasTripleNl ('\n' :: c :: R)) := rfl
  rw [h1, hc, htn_nl c hc R]
  simp

/-- An emitted newline run never contains three newlines. -/
lemma htn_emit (p : Nat) : hasTripleNl (emitNlRun p) = false := by
  unfold emitNlRun
  split
  · decide
  · rename_i h
    have hp : p < 3 := by omega
    interval_cases p <;> decide

/-- An emitted newline run followed by a non-newline character cannot
contribute a triple newline. -/
lemma htn_emit_append (p : Nat) (c : Char) (hc : (c == '\n') = false)
    (R : List Char) :
    hasTripleNl (emitNlRun p ++ (c :: R)) = hasTripleNl (c :: R) := by
  unfold emitNlRun
  split
  · exact htn_nl_nl c hc R
  · rename_i h
    have hp : p < 3 := by omega
    interval_cases p
    · rfl
    · exact htn_nl c hc R
    · exact htn_nl_nl c hc R

/-- The newline-collapsing replacement never leaves three consecutive
newlines. -/
lemma htn_collapse (l : List Char) :
    ∀ p : Nat, hasTripleNl (collapseNlAux p l) = false := by
  induction l with
  | nil => intro p; exact htn_emit p
  | cons c t ih =>
    intro p
    by_cases hc : c = '\n'
    · subst hc
      rw [show collapseNlAux p ('\n' :: t) = collapseNlAux (p + 1) t from by
        simp [collapseNlAux]]
      exact ih (p + 1)
    · have hcb : (c == '\n') = false := by simp [hc]
      rw [show collapseNlAux p (c :: t) = emitNlRun p ++ (c :: collapseNlAux 0 t) from by
        simp [collapseNlAux, hc]]
      rw [htn_emit_append p c hcb, htn_cons_of_first c hcb]
      exact ih 0

/-- C7: on the completion path the returned text is the collaborator's
output passed through `cleanOutput` — trimmed and with every run of three
or more newlines collapsed to the two-newline blank-line separator — and
the returned text never contains three consecutive newlines. -/
theorem completionPath_output_hygiene (c : Collab) (m : String)
    (hist : List ChatMsg) (out : String)
    (hcmd : ¬(c.hasSolana = true ∧ c.isSolanaCommand m = true))
    (hne : cleanInput m ≠ "")
    (hlen : ¬((cleanInput m).length > c.maxInputLength))
    (hgen : c.generateChat c.systemPrompt
      (completionMessages hist (cleanInput m)) = Except.ok out) :
    processMessage c m hist =
      Except.ok ⟨cleanOutput out, [],
        [(c.systemPrompt, completionMessages hist (cleanInput m))], []⟩ ∧
    cleanOutput out = String.mk (collapseNlAux 0 (trimList out.data)) ∧
    hasTripleNl (cleanOutput out).data = false := by
  refine ⟨?_, rfl, htn_collapse (trimList out.data) 0⟩
  have hb := notCommand_and_eq_false hcmd
  simp [processMessage, hb, hne, hlen, hgen]

/-- Completion collaborator that answers with padded text holding a run of
four newlines. -/
def nlCollab : Collab :=
  { completionCollab with
    generateChat := fun _ _ => Except.ok ("  line1\n\n\n\nline2\n") }

/-- Witness for C7: the padded four-newline answer comes back trimmed with
the run collapsed to a single blank line. -/
theorem completionPath_output_hygiene_witness :
    cleanInput ("hi") ≠ "" ∧
    processMessage nlCollab ("hi") [] =
      Except.ok ⟨"line1\n\nline2", [], [("sys", [⟨ChatRole.user, "hi"⟩])], []⟩ ∧
    hasTripleNl ("line1\n\nline2").data = false := by
  refine ⟨by decide, ?_, by decide⟩
  have h := (completionPath_output_hygiene nlCollab ("hi") []
    ("  line1\n\n\n\nline2\n") (by decide) (by decide) (by decide) rfl).1
  have hc : cleanOutput ("  line1\n\n\n\nline2\n") = "line1\n\nline2" := by decide
  rw [← hc]
  exact h

/-- C8: on the completion path the submitted messages are exactly the last
ten history turns, in order, followed by the cleaned current message as a
user turn; earlier turns are never included (the window is a suffix of the
history of length at most ten). -/
theorem completionPath_history_window (c : Collab) (m : String)
    (hist : List ChatMsg)
    (hcmd : ¬(c.hasSolana = true ∧ c.isSolanaCommand m = true))
    (hne : cleanInput m ≠ "")
    (hlen : ¬((cleanInput m).length > c.maxInputLength)) :
    (∃ res : ProcResult, processMessage c m hist = Except.ok res ∧
      res.chatCalls = [(c.systemPrompt, completionMessages hist (cleanInput m))]) ∧
    completionMessages hist (cleanInput m) =
      lastN 10 hist ++ [⟨ChatRole.user, cleanInput m⟩] ∧
    (lastN 10 hist).length ≤ 10 ∧
    lastN 10 hist <:+ hist := by
  refine ⟨?_, rfl, ?_, ?_⟩
  · have hb := notCommand_and_eq_false hcmd
    cases hgen : c.generateChat c.systemPrompt
      (completionMessages hist (cleanInput m)) with
    | ok out =>
      refine ⟨⟨cleanOutput out, [],
        [(c.systemPrompt, completionMessages hist (cleanInput m))], []⟩, ?_, rfl⟩
      simp [processMessage, hb, hne, hlen, hgen]
    | error e =>
      refine ⟨⟨aiErrorResponse e, [],
        [(c.systemPrompt, completionMessages hist (cleanInput m))], []⟩, ?_, rfl⟩
      simp [processMessage, hb, hne, hlen, hgen]
  · show (hist.drop (hist.length - 10)).length ≤ 10
    rw [List.length_drop]
    omega
  · exact List.drop_suffix _ _

/-- A twelve-turn history used to exercise the ten-turn window. -/
def histTwelve : List ChatMsg :=
  [⟨ChatRole.user, "m1"⟩, ⟨ChatRole.assistant, "r1"⟩,
   ⟨ChatRole.user, "m2"⟩, ⟨ChatRole.assistant, "r2"⟩,
   ⟨ChatRole.user, "m3"⟩, ⟨ChatRole.assistant, "r3"⟩,
   ⟨ChatRole.user, "m4"⟩, ⟨ChatRole.assistant, "r4"⟩,
   ⟨ChatRole.user, "m5"⟩, ⟨ChatRole.assistant, "r5"⟩,
   ⟨ChatRole.user, "m6"⟩, ⟨ChatRole.assistant, "r6"⟩]

/-- Witness for C8: with twelve history turns only the last ten are
submitted, followed by the cleaned message. -/
theorem completionPath_history_window_witness :
    (∃ res : ProcResult,
      processMessage completionCollab ("hi") histTwelve = Except.ok res ∧
      res.chatCalls =
        [("sys", completionMessages histTwelve (cleanInput ("hi")))]) ∧
    completionMessages histTwelve (cleanInput ("hi")) =
      [⟨ChatRole.user, "m2"⟩, ⟨ChatRole.assistant, "r2"⟩,
       ⟨ChatRole.user, "m3"⟩, ⟨ChatRole.assistant, "r3"⟩,
       ⟨ChatRole.user, "m4"⟩, ⟨ChatRole.assistant, "r4"⟩,
       ⟨ChatRole.user, "m5"⟩, ⟨ChatRole.assistant, "r5"⟩,
       ⟨ChatRole.user, "m6"⟩, ⟨ChatRole.assistant, "r6"⟩,
       ⟨ChatRole.user, "hi"⟩] :=
  ⟨(completionPath_history_window completionCollab ("hi") histTwelve
      (by decide) (by decide) (by decide)).1,
   by decide⟩

/-- Folding recorded outcomes accumulates the success and failure counts. -/
lemma recordOutcome_counts (outcomes : List Bool) :
    ∀ st : AgentStats,
      (outcomes.foldl recordOutcome st).successes =
        st.successes + outcomes.count true ∧
      (outcomes.foldl recordOutcome st).failures =
        st.failures + outcomes.count false := by
  induction outcomes with
  | nil => intro st; simp
  | cons b t ih =>
    intro st
    rw [List.foldl_cons]
    refine ⟨?_, ?_⟩
    · rw [(ih (recordOutcome st b)).1]
      cases b <;> simp [recordOutcome, List.count_cons] <;> omega
    · rw [(ih (recordOutcome st b)).2]
      cases b <;> simp [recordOutcome, List.count_cons] <;> omega

/-- Clamping keeps every recorded reputation inside [0, 100]. -/
lemma recordOutcome_rep_bounds (outcomes : List Bool) :
    ∀ st : AgentStats, 0 ≤ st.reputation → st.reputation ≤ 100 →
      0 ≤ (outcomes.foldl recordOutcome st).reputation ∧
      (outcomes.foldl recordOutcome st).reputation ≤ 100 := by
  induction outcomes with
  | nil => intro st h0 h1; exact ⟨h0, h1⟩
  | cons b t ih =>
    intro st h0 h1
    rw [List.foldl_cons]
    apply ih
    · exact le_max_left 0 _
    · exact max_le (by norm_num) (min_le_left _ _)

/-- A boolean list is exhausted by its `true` and `false` counts. -/
lemma count_true_add_count_false (l : List Bool) :
    l.count true + l.count false = l.length := by
  induction l with
  | nil => rfl
  | cons b t ih => cases b <;> simp [List.count_cons] <;> omega

/-- C6: after any sequence of recorded outcomes with `n` successes and `m`
failures, in any order, `tasksCompleted = n + m`, `successRate` equals
`100 * n / (n + m)` exactly, and `reputation` stays within [0, 100]. -/
theorem recordTask_aggregate (outcomes : List Bool) (st0 : AgentStats)
    (hs : st0.successes = 0) (hf : st0.failures = 0)
    (h0 : 0 ≤ st0.reputation) (h1 : st0.reputation ≤ 100) :
    tasksCompleted (outcomes.foldl recordOutcome st0) = outcomes.length ∧
    (outcomes.foldl recordOutcome st0).successes = outcomes.count true ∧
    (outcomes.foldl recordOutcome st0).failures = outcomes.count false ∧
    (outcomes ≠ [] →
      successRate (outcomes.foldl recordOutcome st0) =
        100 * (outcomes.count true : ℚ) / (outcomes.length : ℚ)) ∧
    0 ≤ (outcomes.foldl recordOutcome st0).reputation ∧
    (outcomes.foldl recordOutcome st0).reputation ≤ 100 := by
  obtain ⟨hcs, hcf⟩ := recordOutcome_counts outcomes st0
  obtain ⟨hr0, hr1⟩ := recordOutcome_rep_bounds outcomes st0 h0 h1
  rw [hs, Nat.zero_add] at hcs
  rw [hf, Nat.zero_add] at hcf
  have htc : tasksCompleted (outcomes.foldl recordOutcome st0) =
      outcomes.length := by
    unfold tasksCompleted
    rw [hcs, hcf]
    exact count_true_add_count_false outcomes
  refine ⟨htc, hcs, hcf, ?_, hr0, hr1⟩
  intro hne
  have hlen : outcomes.length ≠ 0 := by
    cases outcomes with
    | nil => exact absurd rfl hne
    | cons b t => simp
  unfold successRate
  rw [htc, hcs, if_neg hlen]

/-- Witness for C6: one success then two failures gives three tasks, a
success rate of 100/3 and a reputation still inside the bounds. -/
theorem recordTask_aggregate_witness :
    tasksCompleted ([true, false, false].foldl recordOutcome ⟨0, 0, 0⟩) = 3 ∧
    successRate ([true, false, false].foldl recordOutcome ⟨0, 0, 0⟩) = 100 / 3 ∧
    0 ≤ ([true, false, false].foldl recordOutcome
      (⟨0, 0, 0⟩ : AgentStats)).reputation ∧
    ([true, false, false].foldl recordOutcome
      (⟨0, 0, 0⟩ : AgentStats)).reputation ≤ 100 := by
  have h := recordTask_aggregate [true, false, false] ⟨0, 0, 0⟩ rfl rfl
    (by norm_num) (by norm_num)
  have h2 := h.2.2.2.1 (by decide)
  have hcount : ([true, false, false].count true) = 1 := by decide
  have hlen : ([true, false, false].length) = 3 := by decide
  rw [hcount, hlen] at h2
  norm_num at h2
  exact ⟨h.1, h2, h.2.2.2.2.1, h.2.2.2.2.2⟩

/-- Toggling a name that no capability carries leaves the list unchanged. -/
lemma setFirstCapability_not_found (nm : String) (en : Bool)
    (l : List AgentCapability) (h : ∀ c0 ∈ l, c0.name ≠ nm) :
    setFirstCapability nm en l = l := by
  induction l with
  | nil => rfl
  | cons c0 t ih =>
    have hne : ¬(c0.name = nm) := h c0 (by simp)
    rw [show setFirstCapability nm en (c0 :: t) =
      c0 :: setFirstCapability nm en t from by simp [setFirstCapability, hne]]
    rw [ih (fun x hx => h x (by simp [hx]))]

/-- Toggling updates exactly the first capability with the matching name. -/
lemma setFirstCapability_split (nm : String) (en : Bool)
    (l1 l2 : List AgentCapability) (cap : AgentCapability)
    (hcap : cap.name = nm) (h : ∀ c0 ∈ l1, c0.name ≠ nm) :
    setFirstCapability nm en (l1 ++ cap :: l2) =
      l1 ++ { cap with enabled := en } :: l2 := by
  induction l1 with
  | nil => simp [setFirstCapability, hcap]
  | cons c0 t ih =>
    have hne : ¬(c0.name = nm) := h c0 (by simp)
    rw [List.cons_append]
    rw [show setFirstCapability nm en (c0 :: (t ++ cap :: l2)) =
      c0 :: setFirstCapability nm en (t ++ cap :: l2) from by
        simp [setFirstCapability, hne]]
    rw [ih (fun x hx => h x (by simp [hx]))]
    rfl

/-- A profile that already advertises an enabled capability named "X". -/
def dupProfile : AgentProfile :=
  { id := "agent_1", name := "local", description := "d", version := "1.0.0",
    publicKey := none,
    capabilities := [⟨"X", "existing", "1.0.0", true⟩],
    reputation := 0, tasksCompleted := 0, successRate := 100,
    pricing := none, createdAt := 0, lastActive := 0 }

/-- Counterexample to C9 as stated: on a profile already holding an enabled
capability named "X", adding another "X" and toggling "X" off disables only
the first match — the added capability stays enabled, so
`getEnabledCapabilities` still contains a capability named "X". -/
theorem capabilityToggle_counterexample :
    getEnabledCapabilities (toggleCapability
        (addCapability (some dupProfile) ⟨"X", "added", "1.0.0", true⟩)
        ("X") false) =
      [⟨"X", "added", "1.0.0", true⟩] := by decide

/-- C9 amended: on an initialized profile with no capability named `x`,
adding an enabled capability `x` and toggling `x` off leaves no enabled
capability named `x` (and none at all when every prior capability was
disabled); `toggleCapability` updates the first matching capability only,
and is a no-op if no name matches or the profile is uninitialized; an
uninitialized profile has no enabled capabilities. -/
theorem capabilityToggle_amended :
    (∀ (pr : AgentProfile) (x d v : String),
      (∀ c0 ∈ pr.capabilities, c0.name ≠ x) →
      ((getEnabledCapabilities (toggleCapability
          (addCapability (some pr) ⟨x, d, v, true⟩) x false)).all
        (fun c0 => c0.name ≠ x) = true) ∧
      ((∀ c0 ∈ pr.capabilities, c0.enabled = false) →
        getEnabledCapabilities (toggleCapability
          (addCapability (some pr) ⟨x, d, v, true⟩) x false) = [])) ∧
    (∀ (nm : String) (en : Bool), toggleCapability none nm en = none) ∧
    (∀ (pr : AgentProfile) (nm : String) (en : Bool),
      (∀ c0 ∈ pr.capabilities, c0.name ≠ nm) →
      toggleCapability (some pr) nm en = some pr) ∧
    (∀ (pr : AgentProfile) (l1 l2 : List AgentCapability)
      (cap : AgentCapability) (nm : String) (en : Bool),
      pr.capabilities = l1 ++ cap :: l2 → cap.name = nm →
      (∀ c0 ∈ l1, c0.name ≠ nm) →
      toggleCapability (some pr) nm en =
        some { pr with capabilities := l1 ++ { cap with enabled := en } :: l2 }) ∧
    getEnabledCapabilities none = [] := by
  refine ⟨?_, fun nm en => rfl, ?_, ?_, rfl⟩
  · intro pr x d v hx
    have hset : setFirstCapability x false
        (pr.capabilities ++ [⟨x, d, v, true⟩]) =
        pr.capabilities ++ [⟨x, d, v, false⟩] :=
      setFirstCapability_split x false pr.capabilities [] ⟨x, d, v, true⟩ rfl hx
    constructor
    · simp only [addCapability, toggleCapability, getEnabledCapabilities, hset]
      rw [List.all_eq_true]
      intro c0 hc0
      have hmem := List.mem_filter.mp hc0
      rcases List.mem_append.mp hmem.1 with hl | hr
      · simpa using hx c0 hl
      · exfalso
        have : c0 = ⟨x, d, v, false⟩ := by simpa using hr
        rw [this] at hmem
        simp at hmem
    · intro hdis
      simp only [addCapability, toggleCapability, getEnabledCapabilities, hset]
      rw [List.filter_append]
      have h1 : pr.capabilities.filter (fun c0 => c0.enabled) = [] := by
        rw [List.filter_eq_nil_iff]
        intro a ha
        simp [hdis a ha]
      rw [h1]
      rfl
  · intro pr nm en h
    simp only [toggleCapability, setFirstCapability_not_found nm en pr.capabilities h]
  · intro pr l1 l2 cap nm en hcaps hcap h
    simp only [toggleCapability, hcaps, setFirstCapability_split nm en l1 l2 cap hcap h]

/-- A freshly registered profile with zero capabilities. -/
def freshProfile : AgentProfile :=
  { id := "agent_2", name := "local", description := "d", version := "1.0.0",
    publicKey := none, capabilities := [],
    reputation := 0, tasksCompleted := 0, successRate := 100,
    pricing := none, createdAt := 0, lastActive := 0 }

/-- Witness for the amended C9 on a zero-capability profile: add enabled
"X", toggle "X" off, and no enabled capability remains. -/
theorem capabilityToggle_amended_witness :
    getEnabledCapabilities (toggleCapability
        (addCapability (some freshProfile) ⟨"X", "d", "1.0.0", true⟩)
        ("X") false) = [] ∧
    toggleCapability none ("X") true = none :=
  ⟨(capabilityToggle_amended.1 freshProfile "X" "d" "1.0.0"
      (by intro c0 hc0; simp [freshProfile] at hc0)).2
      (by intro c0 hc0; simp [freshProfile] at hc0),
   capabilityToggle_amended.2.1 "X" true⟩

end AlmAgent
